import Mathlib

/-!
Shallow embedding of the theme backend (brand configuration store, code
resolver, brand resolution service, font stylesheet generator, identity
resolution facade, and the admin write path), together with proofs about
the claims of the specification.

Python dictionaries are modelled as association lists, mutable service
state as explicit state passing, and Python exceptions as `Option` or
`Except` results.
-/

namespace ThemeBackend

set_option maxRecDepth 100000

/-- Python `str.lower()` (the identifiers and filenames the code lowers
are ASCII). -/
def pyLower (s : String) : String :=
  String.mk (s.data.map Char.toLower)

/-- Python `str.rstrip("/")`: remove all trailing slash characters. -/
def rstripSlash (s : String) : String :=
  String.mk ((s.data.reverse.dropWhile (fun c => c == '/')).reverse)

/-- Python `sep.join(parts)`. -/
def pyJoin (sep : String) : List String → String
  | [] => ""
  | [x] => x
  | x :: y :: xs => x ++ sep ++ pyJoin sep (y :: xs)

/-- Character-level worker for Python `str.replace(old, new)`: scan left
to right, replacing non-overlapping occurrences of `pat` by `rep`.  The
fuel argument (instantiated with the input length, an upper bound on the
number of scan steps) keeps the recursion structural so that the kernel
can evaluate the function.  An empty pattern leaves the input unchanged
(the source never calls it that way). -/
def replaceSubFuel (pat rep : List Char) : Nat → List Char → List Char
  | 0, l => l
  | _, [] => []
  | fuel + 1, c :: cs =>
    if pat ≠ [] ∧ (c :: cs).take pat.length = pat then
      rep ++ replaceSubFuel pat rep fuel ((c :: cs).drop pat.length)
    else
      c :: replaceSubFuel pat rep fuel cs

/-- Python `s.replace(old, new)` (all non-overlapping occurrences). -/
def pyReplace (s pat rep : String) : String :=
  String.mk (replaceSubFuel pat.data rep.data s.data.length s.data)

/-- Association-list update with Python dict semantics: `d[k] = v`. -/
def dictSet {α : Type} (d : List (String × α)) (k : String) (v : α) :
    List (String × α) :=
  (k, v) :: d.filter (fun kv => kv.1 != k)

/-- One entry of a `variants` array in `brands.json`
(`{"file": ..., "weight": ..., "style": ...}`). -/
structure FontVariantJson where
  file : String
  weight : Nat
  style : String
deriving DecidableEq

/-- One font family entry (`{"name": ..., "variants": [...]}`). -/
structure FontFamilyJson where
  name : String
  variants : List FontVariantJson
deriving DecidableEq

/-- The `fonts` object of a brand configuration.  `primary` is `none` when
the key is absent.  `secondary` distinguishes key absent (`none`), key
present but null (`some none`), and a real family (`some (some f)`),
because the code treats those three cases differently. -/
structure FontsJson where
  primary : Option FontFamilyJson := none
  secondary : Option (Option FontFamilyJson) := none
  fallback : Option String := none
deriving DecidableEq

/-- One brand configuration record of `brands.json`.  `customerName` is
`none` when the key is absent (the code indexes it unconditionally, so
absence raises a `KeyError`).  `fonts` is `none` when the key is absent
(the code uses `.get("fonts", {})` there). -/
structure BrandConfigJson where
  customerName : Option String := none
  colors : List (String × String) := []
  fonts : Option FontsJson := none
  logos : List (String × String) := []
  placeholders : List (String × List (String × String)) := []
deriving DecidableEq

/-- The settings fields the modelled code reads. -/
structure Settings where
  STATIC_BASE_URL : String
  ENABLE_CACHE : Bool
deriving DecidableEq

/-- The mutable state shared by the services: the `brands.json` file on
disk, the `BrandService._brands_cache`, and the `FontService._css_cache`. -/
structure SysState where
  file : List (String × BrandConfigJson)
  brandsCache : Option (List (String × BrandConfigJson)) := none
  cssCache : List (String × String) := []
deriving DecidableEq

/-- `BrandService._load_brands`: serve from the in-memory cache when it is
populated and caching is enabled, otherwise read the file and populate the
cache (the cache is written even when `ENABLE_CACHE` is false, as in the
source). -/
def load_brands_svc (st : Settings) (s : SysState) :
    List (String × BrandConfigJson) × SysState :=
  match s.brandsCache with
  | some b =>
    if st.ENABLE_CACHE then (b, s)
    else (s.file, { s with brandsCache := some s.file })
  | none => (s.file, { s with brandsCache := some s.file })

/-- `BrandService.get_brand_ids`. -/
def get_brand_ids (st : Settings) (s : SysState) : List String × SysState :=
  let (brands, s1) := load_brands_svc st s
  (brands.map Prod.fst, s1)

/-- `BrandService.brand_exists`: membership test on the lower-cased id. -/
def brand_exists (st : Settings) (s : SysState) (brandId : String) :
    Bool × SysState :=
  let (brands, s1) := load_brands_svc st s
  ((brands.lookup (pyLower brandId)).isSome, s1)

/-- `BrandService.get_brand_config`: lookup on the lower-cased id; `none`
models the `BrandNotFoundError` raise. -/
def get_brand_config (st : Settings) (s : SysState) (brandId : String) :
    Option BrandConfigJson × SysState :=
  let (brands, s1) := load_brands_svc st s
  (brands.lookup (pyLower brandId), s1)

/-- `BrandService._build_static_url`. -/
def build_static_url (st : Settings) (brandId : String)
    (pathParts : List String) : String :=
  rstripSlash st.STATIC_BASE_URL ++ "/brands/" ++ brandId ++ "/" ++
    pyJoin "/" pathParts

/-- `BrandService.build_logo_urls`. -/
def build_logo_urls (st : Settings) (brandId : String)
    (logosConfig : List (String × String)) : List (String × String) :=
  logosConfig.map (fun kv => (kv.1, build_static_url st brandId ["images", kv.2]))

/-- A font variant after URL materialization (`src` instead of `file`). -/
structure BuiltVariant where
  src : String
  weight : Nat
  style : String
deriving DecidableEq

/-- A font family after URL materialization. -/
structure BuiltFamily where
  name : String
  variants : List BuiltVariant
deriving DecidableEq

/-- `BrandService.build_font_urls`. -/
def build_font_urls (st : Settings) (brandId : String)
    (fontFamily : FontFamilyJson) : BuiltFamily :=
  { name := fontFamily.name
    variants := fontFamily.variants.map (fun v =>
      { src := build_static_url st brandId ["fonts", v.file]
        weight := v.weight
        style := v.style }) }

/-- `BrandService.get_fonts_css_url`. -/
def get_fonts_css_url (st : Settings) (brandId : String) : String :=
  pyReplace (rstripSlash st.STATIC_BASE_URL) "/static" "" ++
    "/api/fonts/" ++ brandId ++ "/fonts.css"

/-- The errors `FontService.generate_fonts_css` can raise:
`BrandNotFoundError` from the config lookup, the `KeyError` from indexing
a missing `customerName`, and the `AttributeError` from calling `.get` on
a null `secondary` value in the CSS-variables block. -/
inductive GenErr where
  | brandNotFound
  | keyError
  | attributeError
deriving DecidableEq

/-- `FontService._get_font_format`: `filename.lower().split(".")[-1]` is
the segment after the last dot of the lower-cased filename (the whole
string when it has no dot), mapped through the format table. -/
def get_font_format (filename : String) : String :=
  let ext := String.mk
    (((pyLower filename).data.reverse.takeWhile (fun c => c != '.')).reverse)
  if ext = "woff2" then "woff2"
  else if ext = "woff" then "woff"
  else if ext = "ttf" then "truetype"
  else if ext = "otf" then "opentype"
  else if ext = "eot" then "embedded-opentype"
  else "truetype"

/-- `FontService._generate_font_face`: one `font-face` block. -/
def generate_font_face (familyName srcUrl : String) (weight : Nat)
    (style : String) : String :=
  let fontFormat := get_font_format srcUrl
  "@font-face \x7b\n  font-family: \x27" ++ familyName ++
    "\x27;\n  src: url(\x27" ++ srcUrl ++ "\x27) format(\x27" ++ fontFormat ++
    "\x27);\n  font-weight: " ++ toString weight ++
    ";\n  font-style: " ++ style ++ ";\n  font-display: swap;\n\x7d"

/-- The cache-free body of `FontService.generate_fonts_css` applied to an
already fetched configuration: the comment headers, the primary and
secondary `font-face` sections, and the CSS custom-properties block,
joined by blank lines, or the exception the Python body would raise. -/
def fonts_css_pure (st : Settings) (brandId : String)
    (cfg : BrandConfigJson) : Except GenErr String :=
  let fontsConfig := cfg.fonts.getD {}
  match cfg.customerName with
  | none => Except.error GenErr.keyError
  | some customerName =>
    match fontsConfig.secondary with
    | some none => Except.error GenErr.attributeError
    | secondaryVal =>
      let headerBlocks : List String :=
        ["/* Fonts for " ++ customerName ++ " */",
         "/* Generated dynamically - DO NOT EDIT */\n"]
      let primaryBlocks : List String :=
        match fontsConfig.primary with
        | none => []
        | some p =>
          let pUrls := build_font_urls st brandId p
          ("/* Primary Font: " ++ p.name ++ " */") ::
            pUrls.variants.map (fun v =>
              generate_font_face p.name v.src v.weight v.style)
      let secondaryBlocks : List String :=
        match secondaryVal with
        | some (some sec) =>
          let sUrls := build_font_urls st brandId sec
          ("\n/* Secondary Font: " ++ sec.name ++ " */") ::
            sUrls.variants.map (fun v =>
              generate_font_face sec.name v.src v.weight v.style)
        | _ => []
      let fallback := fontsConfig.fallback.getD "Arial, sans-serif"
      let primaryName := (fontsConfig.primary.map FontFamilyJson.name).getD "Arial"
      let secondaryName :=
        match secondaryVal with
        | some (some sec) => sec.name
        | _ => primaryName
      let rootBlock :=
        "\n/* CSS Custom Properties */\n:root \x7b\n  --font-primary: \x27" ++
          primaryName ++ "\x27, " ++ fallback ++
          ";\n  --font-secondary: \x27" ++ secondaryName ++ "\x27, " ++
          fallback ++ ";\n  --font-fallback: " ++ fallback ++ ";\n\x7d"
      Except.ok (pyJoin "\n\n"
        (headerBlocks ++ primaryBlocks ++ secondaryBlocks ++ [rootBlock]))

/-- `FontService.generate_fonts_css`: serve from the CSS cache when
enabled and populated for the lower-cased id, otherwise fetch the
configuration, run the body, and cache a successful result. -/
def generate_fonts_css (st : Settings) (s : SysState) (brandId : String) :
    Except GenErr String × SysState :=
  let cacheKey := pyLower brandId
  if st.ENABLE_CACHE = true ∧ (s.cssCache.lookup cacheKey).isSome then
    (Except.ok ((s.cssCache.lookup cacheKey).getD ""), s)
  else
    match get_brand_config st s brandId with
    | (none, s1) => (Except.error GenErr.brandNotFound, s1)
    | (some cfg, s1) =>
      match fonts_css_pure st brandId cfg with
      | Except.error e => (Except.error e, s1)
      | Except.ok css =>
        if st.ENABLE_CACHE then
          (Except.ok css, { s1 with cssCache := dictSet s1.cssCache cacheKey css })
        else (Except.ok css, s1)

/-- `FontService.clear_cache` for a single brand (defined in the source
but never invoked by any write path). -/
def font_clear_cache (s : SysState) (brandId : String) : SysState :=
  { s with cssCache := s.cssCache.filter (fun kv => kv.1 != pyLower brandId) }

/-- Admin `save_brands`: write the file and reset the brand service
read cache; the font CSS cache is left untouched. -/
def save_brands (data : List (String × BrandConfigJson)) (s : SysState) :
    SysState :=
  { s with file := data, brandsCache := none }

/-- Admin `update_brand` (PUT `/admin/api/brands/brand_id`): load the file
directly, replace the entry when present (404, modelled `none`, otherwise),
and save. -/
def update_brand (brandId : String) (config : BrandConfigJson)
    (s : SysState) : Option SysState :=
  let brands := s.file
  if (brands.lookup brandId).isSome then
    some (save_brands (dictSet brands brandId config) s)
  else none

/-- Ordering used by `upload_font` when it sorts variants:
Python `sorted(variants, key=lambda x: (x["weight"], x["style"]))`. -/
def variantLe (a b : FontVariantJson) : Prop :=
  a.weight < b.weight ∨ (a.weight = b.weight ∧ a.style ≤ b.style)

instance : DecidableRel variantLe := fun a b => by
  unfold variantLe; infer_instance

instance : IsTotal FontVariantJson variantLe where
  total a b := by
    unfold variantLe
    rcases Nat.lt_trichotomy a.weight b.weight with h | h | h
    · exact Or.inl (Or.inl h)
    · rcases le_total a.style b.style with hs | hs
      · exact Or.inl (Or.inr ⟨h, hs⟩)
      · exact Or.inr (Or.inr ⟨h.symm, hs⟩)
    · exact Or.inr (Or.inl h)

instance : IsTrans FontVariantJson variantLe where
  trans a b c hab hbc := by
    unfold variantLe at *
    rcases hab with h1 | ⟨he1, hs1⟩ <;> rcases hbc with h2 | ⟨he2, hs2⟩
    · exact Or.inl (Nat.lt_trans h1 h2)
    · exact Or.inl (he2 ▸ h1)
    · exact Or.inl (he1 ▸ h2)
    · exact Or.inr ⟨he1.trans he2, le_trans hs1 hs2⟩

/-- Python `existing["file"] = final_filename`: replace the file of the
first variant matching the (weight, style) key, keeping the rest. -/
def replaceFirstVariant (f : String) (w : Nat) (st : String) :
    List FontVariantJson → List FontVariantJson
  | [] => []
  | v :: vs =>
    if v.weight == w && v.style == st then { v with file := f } :: vs
    else v :: replaceFirstVariant f w st vs

/-- The `brands.json` update step of admin `upload_font` (lines 462-479):
replace the file of an existing (weight, style) variant or append a new
one, then sort the variants by (weight, style).  Python `sorted` is a
stable sort; the embedding uses `List.insertionSort`, which is also
stable. -/
def upload_font_variants (variants : List FontVariantJson)
    (finalFilename : String) (weight : Nat) (style : String) :
    List FontVariantJson :=
  let updated :=
    match variants.find? (fun v => v.weight == weight && v.style == style) with
    | some _ => replaceFirstVariant finalFilename weight style variants
    | none => variants ++ [⟨finalFilename, weight, style⟩]
  List.insertionSort variantLe updated

/-- The body of `CodeService.get_brand_id_by_code` models the remote
lookup outcome: a response with a status and a body, or a transport
failure (connection error or timeout of the 10 second bounded call). -/
inductive JsonBody where
  | json (customerName : Option String)
  | invalid
deriving DecidableEq

/-- Outcome of `GET verification_api_url/code` for a given code. -/
inductive RemoteOutcome where
  | response (status : Nat) (body : JsonBody)
  | transportError
deriving DecidableEq

/-- The Python exceptions that can arise inside the `try` block of
`get_brand_id_by_code`. -/
inductive PyExc where
  | codeNotFoundError
  | codeServiceError
  | httpStatusError (status : Nat)
  | requestError
  | otherError
deriving DecidableEq

/-- The exceptions that escape `CodeService.get_brand_id_by_code`. -/
inductive CodeErr where
  | codeNotFound
  | codeService
deriving DecidableEq

/-- `CodeService._codes_cache`: raw code to customer name. -/
abbrev CodeState := List (String × String)

/-- The `try` block of `CodeService.get_brand_id_by_code`: cache check,
remote call, 404 check, `raise_for_status` (any non-2xx raises), JSON
decode, and the falsy check on the `customerName` field.  Returns the
name and the updated cache, or the exception the block raises. -/
def code_lookup_body (st : Settings) (env : String → RemoteOutcome)
    (cache : CodeState) (code : String) :
    Except PyExc (String × CodeState) :=
  if st.ENABLE_CACHE = true ∧ (cache.lookup code).isSome then
    Except.ok ((cache.lookup code).getD "", cache)
  else
    match env code with
    | RemoteOutcome.transportError => Except.error PyExc.requestError
    | RemoteOutcome.response status body =>
      if status = 404 then Except.error PyExc.codeNotFoundError
      else if ¬ (200 ≤ status ∧ status < 300) then
        Except.error (PyExc.httpStatusError status)
      else
        match body with
        | JsonBody.invalid => Except.error PyExc.otherError
        | JsonBody.json customerName =>
          match customerName with
          | none => Except.error PyExc.codeServiceError
          | some cn =>
            if cn = "" then Except.error PyExc.codeServiceError
            else
              Except.ok (cn,
                if st.ENABLE_CACHE then dictSet cache code cn else cache)

/-- The `except` clauses of `get_brand_id_by_code`.  The final
`except Exception` clause also catches the `CodeNotFoundError` raised for
a 404 response inside the `try` block and rewraps it as
`CodeServiceError`; the 404 test in the `HTTPStatusError` clause is
unreachable because `raise_for_status` only runs for non-404 statuses. -/
def handle_code_exc : PyExc → CodeErr
  | PyExc.httpStatusError status =>
    if status = 404 then CodeErr.codeNotFound else CodeErr.codeService
  | PyExc.requestError => CodeErr.codeService
  | _ => CodeErr.codeService

/-- `CodeService.get_brand_id_by_code`. -/
def get_brand_id_by_code (st : Settings) (env : String → RemoteOutcome)
    (cache : CodeState) (code : String) :
    Except CodeErr String × CodeState :=
  match code_lookup_body st env cache code with
  | Except.ok (v, cache1) => (Except.ok v, cache1)
  | Except.error e => (Except.error (handle_code_exc e), cache)

/-- `CodeService.code_exists`: true on success, false when either
exception is raised. -/
def code_exists (st : Settings) (env : String → RemoteOutcome)
    (cache : CodeState) (code : String) : Bool × CodeState :=
  match get_brand_id_by_code st env cache code with
  | (Except.ok _, c1) => (true, c1)
  | (Except.error _, c1) => (false, c1)

/-- Errors escaping `resolve_to_brand_id`: the `BrandNotFoundError` it
raises itself, or a code-service exception propagating from the second
`get_brand_id_by_code` call. -/
inductive FacadeErr where
  | brandNotFound
  | codeErr (e : CodeErr)
deriving DecidableEq

/-- `resolve_to_brand_id` (the identity resolution facade): try the input
as a code first; otherwise treat it as a direct brand id, lower-cased;
otherwise fail. -/
def resolve_to_brand_id (st : Settings) (env : String → RemoteOutcome)
    (cs : CodeState) (s : SysState) (codeOrBrand : String) :
    Except FacadeErr String × CodeState × SysState :=
  match code_exists st env cs codeOrBrand with
  | (true, cs1) =>
    match get_brand_id_by_code st env cs1 codeOrBrand with
    | (Except.ok v, cs2) => (Except.ok v, cs2, s)
    | (Except.error e, cs2) => (Except.error (FacadeErr.codeErr e), cs2, s)
  | (false, cs1) =>
    let (b, s1) := brand_exists st s codeOrBrand
    if b then (Except.ok (pyLower codeOrBrand), cs1, s1)
    else (Except.error FacadeErr.brandNotFound, cs1, s1)

/-! Concrete fixtures used by witnesses and counterexamples. -/

/-- A primary family with one regular variant. -/
def famRegular : FontFamilyJson :=
  { name := "BrandSans", variants := [⟨"BrandSans-Regular.woff2", 400, "normal"⟩] }

/-- The same family after a variant change (bold instead of regular). -/
def famBold : FontFamilyJson :=
  { name := "BrandSans", variants := [⟨"BrandSans-Bold.woff2", 700, "normal"⟩] }

/-- A well-formed brand configuration. -/
def cfgA : BrandConfigJson :=
  { customerName := some "Acme"
    fonts := some { primary := some famRegular }
    logos := [("header", "logo.svg")] }

/-- `cfgA` after a write changing the font variant. -/
def cfgB : BrandConfigJson :=
  { customerName := some "Acme"
    fonts := some { primary := some famBold }
    logos := [("header", "logo.svg")] }

/-- A configuration whose `fonts` object has no `primary` key. -/
def cfgNoPrimary : BrandConfigJson :=
  { customerName := some "Acme", fonts := some {} }

/-- Settings with the in-memory caches enabled. -/
def stCache : Settings :=
  { STATIC_BASE_URL := "https://cdn.example.com/static", ENABLE_CACHE := true }

/-- Settings with the in-memory caches disabled. -/
def stNoCache : Settings :=
  { STATIC_BASE_URL := "https://cdn.example.com/static", ENABLE_CACHE := false }

/-- Fresh state whose store holds `cfgA` under tenant `acme`. -/
def sA : SysState := { file := [("acme", cfgA)] }

/-- Fresh state whose store holds `cfgNoPrimary` under tenant `acme`. -/
def sNoPrimary : SysState := { file := [("acme", cfgNoPrimary)] }

/-- State after one stylesheet generation for `acme` (CSS cache warm). -/
def s1C1 : SysState := (generate_fonts_css stCache sA "acme").2

/-- State after the admin write replacing `acme` with `cfgB`. -/
def s2C1 : SysState := (update_brand "acme" cfgB s1C1).getD sA

/-- The stylesheet text of `cfgA`. -/
def cssOfA : String := (fonts_css_pure stCache "acme" cfgA).toOption.getD ""

/-- The stylesheet text of `cfgB`. -/
def cssOfB : String := (fonts_css_pure stCache "acme" cfgB).toOption.getD ""

/-- A remote environment resolving every code to customer name `Mapfre`. -/
def envMapfre : String → RemoteOutcome :=
  fun _ => RemoteOutcome.response 200 (JsonBody.json (some "Mapfre"))

/-- A remote environment answering 404 for every code. -/
def env404 : String → RemoteOutcome :=
  fun _ => RemoteOutcome.response 404 (JsonBody.json none)

/-- A remote environment timing out for every code. -/
def envTimeout : String → RemoteOutcome :=
  fun _ => RemoteOutcome.transportError

/-- Variant list fixture: regular and bold variants already present. -/
def variantsW : List FontVariantJson :=
  [⟨"Reg.woff2", 400, "normal"⟩, ⟨"Bold.woff2", 700, "normal"⟩]

/-! Helper lemmas shared by the claim theorems. -/

/-- Two strings with equal character data are equal. -/
theorem str_ext {s t : String} (h : s.data = t.data) : s = t := by
  cases s; cases t; exact congrArg String.mk h

/-- Looking up the key just set by `dictSet` yields the new value. -/
theorem lookup_dictSet {α : Type} (d : List (String × α)) (k : String)
    (v : α) : (dictSet d k v).lookup k = some v := by
  simp [dictSet, List.lookup]

/-- `_load_brands` does not touch the CSS cache. -/
theorem load_cssCache (st : Settings) (s : SysState) :
    (load_brands_svc st s).2.cssCache = s.cssCache := by
  unfold load_brands_svc
  cases s.brandsCache <;> by_cases hec : st.ENABLE_CACHE <;> simp [hec]

/-- `_load_brands` is idempotent: a second read returns the same brands
mapping and leaves the state unchanged. -/
theorem load_load (st : Settings) (s : SysState) :
    load_brands_svc st (load_brands_svc st s).2 = load_brands_svc st s := by
  unfold load_brands_svc
  cases h : s.brandsCache <;> by_cases hec : st.ENABLE_CACHE <;> simp [h, hec]

/-- Whether the stylesheet body succeeds depends only on the
configuration, not on the brand identifier threaded into the URLs. -/
theorem fonts_css_pure_isOk (st : Settings) (id1 id2 : String)
    (cfg : BrandConfigJson) :
    (fonts_css_pure st id1 cfg).isOk = (fonts_css_pure st id2 cfg).isOk := by
  unfold fonts_css_pure
  cases cfg.customerName <;> simp [Except.isOk, Except.toBool]
  rcases h : (cfg.fonts.getD {}).secondary with _ | ⟨_ | f⟩ <;>
    simp [h, Except.isOk, Except.toBool]

/-- If the lookup body succeeds, running it again on the resulting cache
gives the same value and cache (cache hit when caching is enabled, an
identical recomputation otherwise). -/
theorem body_ok_again {st : Settings} {env : String → RemoteOutcome}
    {cs c : CodeState} {code v : String}
    (h : code_lookup_body st env cs code = Except.ok (v, c)) :
    code_lookup_body st env c code = Except.ok (v, c) := by
  unfold code_lookup_body at h ⊢
  by_cases hcond : st.ENABLE_CACHE = true ∧ (cs.lookup code).isSome = true
  · rw [if_pos hcond] at h
    simp only [Except.ok.injEq, Prod.mk.injEq] at h
    obtain ⟨hv, hc⟩ := h
    subst hc
    rw [if_pos hcond]
    simp [hv]
  · rw [if_neg hcond] at h
    rcases henv : env code with ⟨status, body⟩ | _
    · rw [henv] at h
      dsimp only at h
      by_cases h404 : status = 404
      · rw [if_pos h404] at h
        simp at h
      rw [if_neg h404] at h
      by_cases hsucc : 200 ≤ status ∧ status < 300
      case neg =>
        rw [if_pos hsucc] at h
        simp at h
      rw [if_neg (not_not_intro hsucc)] at h
      rcases body with cn | _
      · rcases cn with _ | cn
        · simp at h
        dsimp only at h
        by_cases hemp : cn = ""
        · rw [if_pos hemp] at h
          simp at h
        rw [if_neg hemp] at h
        simp only [Except.ok.injEq, Prod.mk.injEq] at h
        obtain ⟨hv, hc⟩ := h
        subst hv
        by_cases hec : st.ENABLE_CACHE = true
        · rw [if_pos hec] at hc
          subst hc
          rw [if_pos ⟨hec, by simp [lookup_dictSet]⟩]
          simp [lookup_dictSet, hec]
        · rw [if_neg hec] at hc
          subst hc
          rw [if_neg hcond]
          dsimp only
          rw [if_neg h404, if_neg (not_not_intro hsucc), if_neg hemp, if_neg hec]
      · simp at h
    · rw [henv] at h
      simp at h

/-- If `get_brand_id_by_code` succeeds, calling it again on the resulting
cache returns the same name and cache. -/
theorem get_again {st : Settings} {env : String → RemoteOutcome}
    {cs c : CodeState} {code v : String}
    (h : get_brand_id_by_code st env cs code = (Except.ok v, c)) :
    get_brand_id_by_code st env c code = (Except.ok v, c) := by
  unfold get_brand_id_by_code at h ⊢
  cases hb : code_lookup_body st env cs code with
  | error e =>
    rw [hb] at h
    simp at h
  | ok p =>
    obtain ⟨w, c1⟩ := p
    rw [hb] at h
    dsimp only at h
    simp only [Prod.mk.injEq, Except.ok.injEq] at h
    obtain ⟨hv, hc⟩ := h
    subst hv
    subst hc
    rw [body_ok_again hb]

/-- Every exception escaping the `try` block of `get_brand_id_by_code`
is rewrapped as `CodeServiceError` by the handler chain: in particular
the `CodeNotFoundError` raised for a 404 response is swallowed by the
final `except Exception` clause. -/
theorem handle_of_body_error {st : Settings} {env : String → RemoteOutcome}
    {cs : CodeState} {code : String} {e : PyExc}
    (h : code_lookup_body st env cs code = Except.error e) :
    handle_code_exc e = CodeErr.codeService := by
  unfold code_lookup_body at h
  by_cases hcond : st.ENABLE_CACHE = true ∧ (cs.lookup code).isSome = true
  · rw [if_pos hcond] at h
    simp at h
  · rw [if_neg hcond] at h
    rcases henv : env code with ⟨status, body⟩ | _
    · rw [henv] at h
      dsimp only at h
      by_cases h404 : status = 404
      · rw [if_pos h404] at h
        simp only [Except.error.injEq] at h
        subst h
        rfl
      rw [if_neg h404] at h
      by_cases hsucc : 200 ≤ status ∧ status < 300
      case neg =>
        rw [if_pos hsucc] at h
        simp only [Except.error.injEq] at h
        subst h
        simp [handle_code_exc, h404]
      rw [if_neg (not_not_intro hsucc)] at h
      rcases body with cn | _
      · rcases cn with _ | cn
        · dsimp only at h
          simp only [Except.error.injEq] at h
          subst h
          rfl
        dsimp only at h
        by_cases hemp : cn = ""
        · rw [if_pos hemp] at h
          simp only [Except.error.injEq] at h
          subst h
          rfl
        · rw [if_neg hemp] at h
          simp at h
      · dsimp only at h
        simp only [Except.error.injEq] at h
        subst h
        rfl
    · rw [henv] at h
      dsimp only at h
      simp only [Except.error.injEq] at h
      subst h
      rfl

/-- Replacing a file reference in place keeps the number of variants. -/
theorem length_replaceFirst (f : String) (w : Nat) (sty : String)
    (l : List FontVariantJson) :
    (replaceFirstVariant f w sty l).length = l.length := by
  induction l with
  | nil => rfl
  | cons v vs ih =>
    unfold replaceFirstVariant
    by_cases hm : (v.weight == w && v.style == sty) = true
    · rw [if_pos hm]
      simp
    · rw [if_neg hm]
      simpa using ih

/-- When some variant matches the key, the replaced list contains the
variant with the new file and that key. -/
theorem mem_replaceFirst {w : Nat} {sty : String}
    {l : List FontVariantJson} {u : FontVariantJson} (f : String)
    (h : l.find? (fun v => v.weight == w && v.style == sty) = some u) :
    (⟨f, w, sty⟩ : FontVariantJson) ∈ replaceFirstVariant f w sty l := by
  induction l with
  | nil => simp [List.find?] at h
  | cons v vs ih =>
    unfold replaceFirstVariant
    by_cases hm : (v.weight == w && v.style == sty) = true
    · rw [if_pos hm]
      simp only [Bool.and_eq_true, beq_iff_eq] at hm
      have : ({ v with file := f } : FontVariantJson) = ⟨f, w, sty⟩ := by
        cases v
        simp_all
      rw [this]
      exact List.mem_cons_self _ _
    · rw [if_neg hm]
      rw [List.find?] at h
      rw [Bool.of_not_eq_true hm] at h
      exact List.mem_cons_of_mem _ (ih h)

/-- Every element of the replaced list carries the (weight, style) key of
some element of the original list. -/
theorem key_mem_replaceFirst {f : String} {w : Nat} {sty : String}
    {l : List FontVariantJson} {b : FontVariantJson}
    (h : b ∈ replaceFirstVariant f w sty l) :
    ∃ a ∈ l, a.weight = b.weight ∧ a.style = b.style := by
  induction l with
  | nil => simp [replaceFirstVariant] at h
  | cons v vs ih =>
    unfold replaceFirstVariant at h
    by_cases hm : (v.weight == w && v.style == sty) = true
    · rw [if_pos hm] at h
      rcases List.mem_cons.mp h with hb | hb
      · exact ⟨v, List.mem_cons_self _ _, by subst hb; simp⟩
      · exact ⟨b, List.mem_cons_of_mem _ hb, rfl, rfl⟩
    · rw [if_neg hm] at h
      rcases List.mem_cons.mp h with hb | hb
      · exact ⟨v, List.mem_cons_self _ _, by subst hb; simp⟩
      · obtain ⟨a, ha, hk⟩ := ih hb
        exact ⟨a, List.mem_cons_of_mem _ ha, hk⟩

/-- Replacing a file reference preserves pairwise key distinctness. -/
theorem pairwise_replaceFirst {f : String} {w : Nat} {sty : String}
    {l : List FontVariantJson}
    (h : l.Pairwise (fun a b => ¬ (a.weight = b.weight ∧ a.style = b.style))) :
    (replaceFirstVariant f w sty l).Pairwise
      (fun a b => ¬ (a.weight = b.weight ∧ a.style = b.style)) := by
  induction l with
  | nil => simp [replaceFirstVariant]
  | cons v vs ih =>
    rw [List.pairwise_cons] at h
    obtain ⟨hv, hvs⟩ := h
    unfold replaceFirstVariant
    by_cases hm : (v.weight == w && v.style == sty) = true
    · rw [if_pos hm]
      rw [List.pairwise_cons]
      exact ⟨fun b hb => hv b hb, hvs⟩
    · rw [if_neg hm]
      rw [List.pairwise_cons]
      refine ⟨fun b hb => ?_, ih hvs⟩
      obtain ⟨a, ha, hk1, hk2⟩ := key_mem_replaceFirst hb
      intro hcontra
      exact hv a ha ⟨hcontra.1.trans hk1.symm, hcontra.2.trans hk2.symm⟩

/-! Claim theorems. -/

/-- C8: `build_logo_urls` is a pure function mapping every
(slot, relativeFilename) entry of the logos map to
slot maps-to baseUrl/brands/tenantId/images/relativeFilename, and on
baseUrl https://cdn.example.com/static, tenant acme, filename logo.svg it
yields https://cdn.example.com/static/brands/acme/images/logo.svg. -/
theorem build_logo_urls_spec (st : Settings) (brandId : String)
    (logosConfig : List (String × String)) :
    build_logo_urls st brandId logosConfig =
      logosConfig.map (fun kv =>
        (kv.1, rstripSlash st.STATIC_BASE_URL ++ "/brands/" ++ brandId ++
          "/images/" ++ kv.2)) ∧
    build_logo_urls ⟨"https://cdn.example.com/static", true⟩ "acme"
        [("header", "logo.svg")] =
      [("header", "https://cdn.example.com/static/brands/acme/images/logo.svg")] := by
  constructor
  · unfold build_logo_urls
    refine List.map_congr_left fun kv _ => ?_
    refine congrArg (Prod.mk kv.1) ?_
    unfold build_static_url
    apply str_ext
    simp [String.data_append, pyJoin]
  · rfl

/-- C10: the stylesheet URL equals the static base URL with trailing
slashes stripped and every occurrence of the substring /static deleted,
followed by /api/fonts/tenantId/fonts.css; it is a total pure function of
(baseUrl, tenantId).  The instances exercise trailing-slash stripping and
deletion of several /static occurrences. -/
theorem fonts_css_url_formula (st : Settings) (brandId : String) :
    get_fonts_css_url st brandId =
      pyReplace (rstripSlash st.STATIC_BASE_URL) "/static" "" ++
        ("/api/fonts/" ++ (brandId ++ "/fonts.css")) ∧
    get_fonts_css_url ⟨"http://localhost:8000/static", true⟩ "acme" =
      "http://localhost:8000/api/fonts/acme/fonts.css" ∧
    get_fonts_css_url ⟨"http://h/static/app/static///", true⟩ "x" =
      "http://h/app/api/fonts/x/fonts.css" ∧
    get_fonts_css_url ⟨"https://cdn.example.com/static", false⟩ "mapfre" =
      "https://cdn.example.com/api/fonts/mapfre/fonts.css" := by
  refine ⟨?_, rfl, rfl, rfl⟩
  unfold get_fonts_css_url
  apply str_ext
  simp [String.data_append]

/-- C5 counterexample: a stored configuration whose fonts object lacks the
required primary family does not fail the read; the generator silently
emits a stylesheet that defaults the primary font name to Arial. -/
theorem missing_primary_defaults_cex :
    (generate_fonts_css stNoCache sNoPrimary "acme").1 =
      Except.ok ("/* Fonts for Acme */\n\n/* Generated dynamically - DO NOT EDIT */\n\n\n\n/* CSS Custom Properties */\n:root \x7b\n  --font-primary: \x27Arial\x27, Arial, sans-serif;\n  --font-secondary: \x27Arial\x27, Arial, sans-serif;\n  --font-fallback: Arial, sans-serif;\n\x7d") := by
  rfl

/-- C1 (code bug): with caching enabled, generating the stylesheet for
acme, then replacing the stored configuration through the admin save path
(which resets only the brand read cache), then generating again returns
the stylesheet of the old configuration: the write never invalidates the
font CSS cache, although the two stylesheets differ and the configuration
read cache was correctly invalidated (the config read after the write
sees the new record). -/
theorem stale_css_after_write_bug :
    update_brand "acme" cfgB s1C1 = some s2C1 ∧
    (generate_fonts_css stCache sA "acme").1 = Except.ok cssOfA ∧
    (generate_fonts_css stCache s2C1 "acme").1 = Except.ok cssOfA ∧
    fonts_css_pure stCache "acme" cfgB = Except.ok cssOfB ∧
    (cssOfA == cssOfB) = false ∧
    (get_brand_config stCache s2C1 "acme").1 = some cfgB :=
  ⟨rfl, rfl, rfl, rfl, rfl, rfl⟩

/-- C3 (code bug): a 404 response from the remote lookup does not surface
as `CodeNotFoundError`: the raise inside the `try` block is caught by the
final `except Exception` clause and rewrapped, so the call raises
`CodeServiceError` instead.  More generally every failure of
`get_brand_id_by_code` — 404, other non-2xx, transport failure or
timeout, invalid JSON, missing or empty customerName — surfaces as
`CodeServiceError`; the function never raises `CodeNotFoundError`. -/
theorem remote_404_maps_to_service_error :
    (get_brand_id_by_code stCache env404 [] "b911a374a2cb41").1 =
      Except.error CodeErr.codeService ∧
    (get_brand_id_by_code stNoCache env404 [] "b911a374a2cb41").1 =
      Except.error CodeErr.codeService ∧
    (get_brand_id_by_code stCache envTimeout [] "b911a374a2cb41").1 =
      Except.error CodeErr.codeService ∧
    (∀ (st : Settings) (env : String → RemoteOutcome) (cache : CodeState)
      (code : String),
      (get_brand_id_by_code st env cache code).1 =
        Except.error CodeErr.codeService ∨
      ∃ v, (get_brand_id_by_code st env cache code).1 = Except.ok v) := by
  refine ⟨rfl, rfl, rfl, fun st env cache code => ?_⟩
  cases hb : code_lookup_body st env cache code with
  | error e =>
    left
    unfold get_brand_id_by_code
    rw [hb]
    dsimp only
    rw [handle_of_body_error hb]
  | ok p =>
    right
    obtain ⟨v, c⟩ := p
    refine ⟨v, ?_⟩
    unfold get_brand_id_by_code
    rw [hb]

/-- C5 (amended): when the stored configuration is missing the
customerName field the read fails for that request (a KeyError); but a
missing primary font family — a required field per the data model — is
silently defaulted, never an error: the primary section is skipped and
the CSS-variables block uses the name Arial, with the optional fallback
stack also defaulting without error. -/
theorem required_field_read_behavior (st : Settings) (s : SysState)
    (brandId : String) (cfg : BrandConfigJson)
    (hmiss : (s.cssCache.lookup (pyLower brandId)).isSome = false)
    (hcfg : ((load_brands_svc st s).1).lookup (pyLower brandId) = some cfg) :
    (cfg.customerName = none →
      (generate_fonts_css st s brandId).1 = Except.error GenErr.keyError) ∧
    (∀ n fb, cfg.customerName = some n →
      cfg.fonts = some { primary := none, secondary := none, fallback := fb } →
      (generate_fonts_css st s brandId).1 = Except.ok
        ("/* Fonts for " ++ n ++
          " */\n\n/* Generated dynamically - DO NOT EDIT */\n\n\n\n/* CSS Custom Properties */\n:root \x7b\n  --font-primary: \x27Arial\x27, " ++
          fb.getD "Arial, sans-serif" ++
          ";\n  --font-secondary: \x27Arial\x27, " ++
          fb.getD "Arial, sans-serif" ++
          ";\n  --font-fallback: " ++ fb.getD "Arial, sans-serif" ++
          ";\n\x7d")) := by
  have hcond : ¬ (st.ENABLE_CACHE = true ∧
      (s.cssCache.lookup (pyLower brandId)).isSome = true) := by
    simp [hmiss]
  have hget : get_brand_config st s brandId =
      (some cfg, (load_brands_svc st s).2) := by
    unfold get_brand_config
    rcases hl : load_brands_svc st s with ⟨brands, s1⟩
    rw [hl] at hcfg
    simpa using hcfg
  constructor
  · intro hc
    unfold generate_fonts_css
    rw [if_neg hcond, hget]
    dsimp only
    unfold fonts_css_pure
    rw [hc]
  · intro n fb hc hf
    have hpure : fonts_css_pure st brandId cfg = Except.ok
        ("/* Fonts for " ++ n ++
          " */\n\n/* Generated dynamically - DO NOT EDIT */\n\n\n\n/* CSS Custom Properties */\n:root \x7b\n  --font-primary: \x27Arial\x27, " ++
          fb.getD "Arial, sans-serif" ++
          ";\n  --font-secondary: \x27Arial\x27, " ++
          fb.getD "Arial, sans-serif" ++
          ";\n  --font-fallback: " ++ fb.getD "Arial, sans-serif" ++
          ";\n\x7d") := by
      unfold fonts_css_pure
      rw [hc, hf]
      dsimp only [Option.getD]
      apply congrArg
      apply str_ext
      simp [pyJoin, String.data_append]
    unfold generate_fonts_css
    rw [if_neg hcond, hget]
    dsimp only
    rw [hpure]
    dsimp only
    split <;> rfl

/-- C5 witness: concrete defaulting run from the amended theorem. -/
theorem required_field_read_behavior_witness :
    (generate_fonts_css stNoCache sNoPrimary "acme").1 = Except.ok
      ("/* Fonts for " ++ "Acme" ++
        " */\n\n/* Generated dynamically - DO NOT EDIT */\n\n\n\n/* CSS Custom Properties */\n:root \x7b\n  --font-primary: \x27Arial\x27, " ++
        (none : Option String).getD "Arial, sans-serif" ++
        ";\n  --font-secondary: \x27Arial\x27, " ++
        (none : Option String).getD "Arial, sans-serif" ++
        ";\n  --font-fallback: " ++
        (none : Option String).getD "Arial, sans-serif" ++ ";\n\x7d") :=
  (required_field_read_behavior stNoCache sNoPrimary "acme" cfgNoPrimary
    rfl rfl).2 "Acme" none rfl rfl

/-- C4: `code_exists` returns true exactly when `get_brand_id_by_code`
succeeds, and false exactly when it raises — either exception kind is
collapsed to false, erasing absent-code versus broken-lookup at this
boundary.  On a cache miss the boolean is moreover characterized by the
remote outcome alone: true only for a 2xx response whose JSON carries a
non-empty customerName. -/
theorem code_exists_collapses_errors (st : Settings)
    (env : String → RemoteOutcome) (cache : CodeState) (code : String)
    (hmiss : cache.lookup code = none) :
    ((code_exists st env cache code).1 = true ↔
      ∃ v, (get_brand_id_by_code st env cache code).1 = Except.ok v) ∧
    ((code_exists st env cache code).1 = false ↔
      ∃ e, (get_brand_id_by_code st env cache code).1 = Except.error e) ∧
    ((code_exists st env cache code).1 =
      match env code with
      | RemoteOutcome.response status (JsonBody.json (some n)) =>
        decide (200 ≤ status ∧ status < 300) && !(n == "")
      | _ => false) := by
  have hchar : ∀ r : Except CodeErr String × CodeState,
      get_brand_id_by_code st env cache code = r →
      (code_exists st env cache code).1 =
        match r.1 with
        | Except.ok _ => true
        | Except.error _ => false := by
    intro r hr
    unfold code_exists
    rw [hr]
    rcases r with ⟨r1, c⟩
    rcases r1 with e | v <;> rfl
  refine ⟨?_, ?_, ?_⟩
  · rcases hg : get_brand_id_by_code st env cache code with ⟨r1, c⟩
    rcases r1 with e | v <;> simp [hchar _ hg, hg]
  · rcases hg : get_brand_id_by_code st env cache code with ⟨r1, c⟩
    rcases r1 with e | v <;> simp [hchar _ hg, hg]
  · have hcond : ¬ (st.ENABLE_CACHE = true ∧
        (cache.lookup code).isSome = true) := by
      simp [hmiss]
    unfold code_exists get_brand_id_by_code code_lookup_body
    rw [if_neg hcond]
    rcases henv : env code with ⟨status, body⟩ | _
    · dsimp only
      by_cases h404 : status = 404
      · subst h404
        rw [if_pos rfl]
        rcases body with cn | _
        · rcases cn with _ | n <;> simp
        · simp
      rw [if_neg h404]
      by_cases hsucc : 200 ≤ status ∧ status < 300
      · rw [if_neg (not_not_intro hsucc)]
        rcases body with cn | _
        · rcases cn with _ | n
          · simp
          dsimp only
          by_cases hemp : n = ""
          · rw [if_pos hemp]
            subst hemp
            simp [hsucc]
          · rw [if_neg hemp]
            simp [hsucc, hemp]
        · rfl
      · rw [if_pos hsucc]
        rcases body with cn | _
        · rcases cn with _ | n
          · simp
          · simp [hsucc]
        · rfl
    · rfl

/-- C4 witness: a remote timeout makes `code_exists` answer false. -/
theorem code_exists_collapses_errors_witness :
    (code_exists stCache envTimeout [] "b911a374a2cb41").1 = false := by
  have h :=
    (code_exists_collapses_errors stCache envTimeout [] "b911a374a2cb41" rfl).2.2
  simpa using h

/-- C2: the facade tries the input as a code first and returns the code
resolution whenever the Code Resolver reports the code as existing — even
when the input is also a valid tenant identifier, since the equation puts
no condition on the store; only otherwise does it fall back to the
lower-cased input if that exists in the configuration store, and
otherwise it raises not-found. -/
theorem resolve_precedence_spec (st : Settings)
    (env : String → RemoteOutcome) (cs : CodeState) (s : SysState)
    (input : String) :
    (resolve_to_brand_id st env cs s input).1 =
      match (get_brand_id_by_code st env cs input).1 with
      | Except.ok v => Except.ok v
      | Except.error _ =>
        if (brand_exists st s input).1 then Except.ok (pyLower input)
        else Except.error FacadeErr.brandNotFound := by
  unfold resolve_to_brand_id code_exists
  rcases hg : get_brand_id_by_code st env cs input with ⟨r1, c⟩
  rcases r1 with e | v
  · dsimp only
    rcases hbe : brand_exists st s input with ⟨b, s1⟩
    dsimp only
    cases b <;> rfl
  · dsimp only
    rw [get_again hg]

/-- C6: for a tenant whose configuration exists, the generated stylesheet
is the pure deterministic function `fonts_css_pure` of the stored
configuration (together with the base URL and identifier — no timestamps,
no nondeterministic ordering), and a second call with no intervening
write returns byte-identical text, whether it is recomputed or served
from the cache populated by the first call. -/
theorem generate_css_deterministic (st : Settings) (s : SysState)
    (brandId : String) (cfg : BrandConfigJson)
    (hmiss : (s.cssCache.lookup (pyLower brandId)).isSome = false)
    (hcfg : ((load_brands_svc st s).1).lookup (pyLower brandId) = some cfg) :
    (generate_fonts_css st s brandId).1 = fonts_css_pure st brandId cfg ∧
    (generate_fonts_css st ((generate_fonts_css st s brandId).2) brandId).1 =
      (generate_fonts_css st s brandId).1 := by
  have hcond : ¬ (st.ENABLE_CACHE = true ∧
      (s.cssCache.lookup (pyLower brandId)).isSome = true) := by
    simp [hmiss]
  have hget : get_brand_config st s brandId =
      (some cfg, (load_brands_svc st s).2) := by
    unfold get_brand_config
    rcases hl : load_brands_svc st s with ⟨brands, s1⟩
    rw [hl] at hcfg
    simpa using hcfg
  have hcss1 : ((load_brands_svc st s).2.cssCache.lookup
      (pyLower brandId)).isSome = false := by
    rw [load_cssCache]
    exact hmiss
  have hcond1 : ¬ (st.ENABLE_CACHE = true ∧
      ((load_brands_svc st s).2.cssCache.lookup
        (pyLower brandId)).isSome = true) := by
    simp [hcss1]
  have hget1 : get_brand_config st ((load_brands_svc st s).2) brandId =
      (some cfg, (load_brands_svc st s).2) := by
    unfold get_brand_config
    rw [load_load]
    rcases hl : load_brands_svc st s with ⟨brands, s1⟩
    rw [hl] at hcfg
    simpa using hcfg
  cases hp : fonts_css_pure st brandId cfg with
  | error e =>
    have h1 : generate_fonts_css st s brandId =
        (Except.error e, (load_brands_svc st s).2) := by
      unfold generate_fonts_css
      rw [if_neg hcond, hget]
      dsimp only
      rw [hp]
    refine ⟨by rw [h1], ?_⟩
    rw [h1]
    dsimp only
    unfold generate_fonts_css
    rw [if_neg hcond1, hget1]
    dsimp only
    rw [hp]
  | ok css =>
    by_cases hec : st.ENABLE_CACHE = true
    · have h1 : generate_fonts_css st s brandId = (Except.ok css,
          { (load_brands_svc st s).2 with
            cssCache := dictSet ((load_brands_svc st s).2).cssCache
              (pyLower brandId) css }) := by
        unfold generate_fonts_css
        rw [if_neg hcond, hget]
        dsimp only
        rw [hp]
        dsimp only
        rw [if_pos hec]
      refine ⟨by rw [h1], ?_⟩
      rw [h1]
      dsimp only
      unfold generate_fonts_css
      rw [if_pos ⟨hec, by rw [lookup_dictSet]; rfl⟩]
      dsimp only
      rw [lookup_dictSet]
      rfl
    · have h1 : generate_fonts_css st s brandId =
          (Except.ok css, (load_brands_svc st s).2) := by
        unfold generate_fonts_css
        rw [if_neg hcond, hget]
        dsimp only
        rw [hp]
        dsimp only
        rw [if_neg hec]
      refine ⟨by rw [h1], ?_⟩
      rw [h1]
      dsimp only
      unfold generate_fonts_css
      rw [if_neg hcond1, hget1]
      dsimp only
      rw [hp]
      dsimp only
      rw [if_neg hec]

/-- C6 witness: concrete run for tenant acme with caching enabled. -/
theorem generate_css_deterministic_witness :
    (generate_fonts_css stCache sA "acme").1 =
      fonts_css_pure stCache "acme" cfgA ∧
    (generate_fonts_css stCache ((generate_fonts_css stCache sA "acme").2)
        "acme").1 = (generate_fonts_css stCache sA "acme").1 :=
  generate_css_deterministic stCache sA "acme" cfgA rfl rfl

/-- C9: a successful code resolution returns the customerName exactly as
received from the remote lookup, with no lower-casing (unlike the
direct-identifier branch); and the downstream operations are insensitive
to casing — two identifiers with the same lower-casing give the same
configuration lookup, the same existence answer, and stylesheet
generations that succeed or fail together (the cache key and the config
key are both lower-cased). -/
theorem code_path_preserves_case (st : Settings)
    (env : String → RemoteOutcome) (cs : CodeState) (s : SysState)
    (code n id1 id2 : String)
    (hcs : cs.lookup code = none)
    (henv : env code = RemoteOutcome.response 200 (JsonBody.json (some n)))
    (hn : (n == "") = false)
    (hid : pyLower id1 = pyLower id2) :
    (resolve_to_brand_id st env cs s code).1 = Except.ok n ∧
    (get_brand_config st s id1).1 = (get_brand_config st s id2).1 ∧
    (brand_exists st s id1).1 = (brand_exists st s id2).1 ∧
    (generate_fonts_css st s id1).1.isOk =
      (generate_fonts_css st s id2).1.isOk := by
  have hne : ¬ (n = "") := by simpa using hn
  have hbody : code_lookup_body st env cs code = Except.ok (n,
      if st.ENABLE_CACHE = true then dictSet cs code n else cs) := by
    unfold code_lookup_body
    rw [if_neg (by simp [hcs]), henv]
    dsimp only
    rw [if_neg (by decide : ¬ ((200 : Nat) = 404)),
      if_neg (not_not_intro (by decide : (200 : Nat) ≤ 200 ∧ (200 : Nat) < 300)),
      if_neg hne]
  have hget : get_brand_id_by_code st env cs code = (Except.ok n,
      if st.ENABLE_CACHE = true then dictSet cs code n else cs) := by
    unfold get_brand_id_by_code
    rw [hbody]
  refine ⟨?_, ?_, ?_, ?_⟩
  · unfold resolve_to_brand_id code_exists
    rw [hget]
    dsimp only
    rw [get_again hget]
  · rcases hl : load_brands_svc st s with ⟨brands, s1⟩
    unfold get_brand_config
    rw [hl]
    dsimp only
    rw [hid]
  · rcases hl : load_brands_svc st s with ⟨brands, s1⟩
    unfold brand_exists
    rw [hl]
    dsimp only
    rw [hid]
  · rcases hl : load_brands_svc st s with ⟨brands, s1⟩
    unfold generate_fonts_css get_brand_config
    rw [hl, hid]
    dsimp only
    by_cases hhit : st.ENABLE_CACHE = true ∧
        (s.cssCache.lookup (pyLower id2)).isSome = true
    · rw [if_pos hhit, if_pos hhit]
    · rw [if_neg hhit, if_neg hhit]
      rcases hcfg : brands.lookup (pyLower id2) with _ | cfg
      · dsimp only
      · dsimp only
        have hiso := fonts_css_pure_isOk st id1 id2 cfg
        rcases hp1 : fonts_css_pure st id1 cfg with e1 | c1 <;>
          rcases hp2 : fonts_css_pure st id2 cfg with e2 | c2 <;>
          rw [hp1, hp2] at hiso <;> dsimp only
        · rfl
        · simp [Except.isOk, Except.toBool] at hiso
        · simp [Except.isOk, Except.toBool] at hiso
        · by_cases hec : st.ENABLE_CACHE = true
          · rw [if_pos hec, if_pos hec]
            rfl
          · rw [if_neg hec, if_neg hec]
            rfl

/-- C9 witness: the facade returns Mapfre with its upper-case M, and ACME
and acme behave the same downstream. -/
theorem code_path_preserves_case_witness :
    (resolve_to_brand_id stCache envMapfre [] sA "b911a374a2cb41").1 =
      Except.ok "Mapfre" ∧
    (get_brand_config stCache sA "ACME").1 =
      (get_brand_config stCache sA "acme").1 ∧
    (brand_exists stCache sA "ACME").1 = (brand_exists stCache sA "acme").1 ∧
    (generate_fonts_css stCache sA "ACME").1.isOk =
      (generate_fonts_css stCache sA "acme").1.isOk :=
  code_path_preserves_case stCache envMapfre [] sA "b911a374a2cb41"
    "Mapfre" "ACME" "acme" rfl rfl rfl rfl

/-- C7: the `brands.json` update step of `upload_font` has upsert
semantics.  If a variant with the same (weight, style) key exists, the
result keeps the variant count and contains the key with the new file
reference; if not, the count grows by exactly one; in both cases the
result is sorted by (weight, style) and, assuming the at-most-one-variant
invariant held before, it holds afterwards. -/
theorem upload_font_upsert_spec (variants : List FontVariantJson)
    (f : String) (w : Nat) (sty : String)
    (hkeys : variants.Pairwise
      (fun a b => ¬ (a.weight = b.weight ∧ a.style = b.style))) :
    ((variants.find? (fun v => v.weight == w && v.style == sty)).isSome =
        true →
      (upload_font_variants variants f w sty).length = variants.length) ∧
    (variants.find? (fun v => v.weight == w && v.style == sty) = none →
      (upload_font_variants variants f w sty).length =
        variants.length + 1) ∧
    (⟨f, w, sty⟩ : FontVariantJson) ∈ upload_font_variants variants f w sty ∧
    List.Sorted variantLe (upload_font_variants variants f w sty) ∧
    (upload_font_variants variants f w sty).Pairwise
      (fun a b => ¬ (a.weight = b.weight ∧ a.style = b.style)) := by
  have hsymm : Symmetric
      (fun a b : FontVariantJson =>
        ¬ (a.weight = b.weight ∧ a.style = b.style)) := by
    intro a b hab hc
    exact hab ⟨hc.1.symm, hc.2.symm⟩
  unfold upload_font_variants
  rcases hf : variants.find? (fun v => v.weight == w && v.style == sty)
    with _ | u <;> rw [hf] <;> dsimp only
  · have hperm := List.perm_insertionSort variantLe
      (variants ++ [(⟨f, w, sty⟩ : FontVariantJson)])
    refine ⟨?_, ?_, ?_, ?_, ?_⟩
    · intro hs
      simp at hs
    · intro _
      rw [hperm.length_eq]
      simp
    · refine hperm.mem_iff.mpr ?_
      simp
    · exact List.sorted_insertionSort variantLe _
    · refine (hperm.pairwise_iff (fun hab => hsymm hab)).mpr ?_
      rw [List.pairwise_append]
      refine ⟨hkeys, by simp, ?_⟩
      intro a ha b hb
      have hb' : b = (⟨f, w, sty⟩ : FontVariantJson) := by simpa using hb
      subst hb'
      have hnone := List.find?_eq_none.mp hf a ha
      simp only [Bool.and_eq_true, beq_iff_eq, not_and] at hnone
      intro hc
      exact hnone hc.1 hc.2
  · have hperm := List.perm_insertionSort variantLe
      (replaceFirstVariant f w sty variants)
    refine ⟨?_, ?_, ?_, ?_, ?_⟩
    · intro _
      rw [hperm.length_eq, length_replaceFirst]
    · intro hs
      simp at hs
    · exact hperm.mem_iff.mpr (mem_replaceFirst f hf)
    · exact List.sorted_insertionSort variantLe _
    · exact (hperm.pairwise_iff (fun hab => hsymm hab)).mpr
        (pairwise_replaceFirst hkeys)

/-- C7 witness: replacing the existing bold variant keeps the count, and
adding a medium variant grows the count by one, both runs sorted. -/
theorem upload_font_upsert_spec_witness :
    (upload_font_variants variantsW "NewBold.woff2" 700 "normal").length =
      variantsW.length ∧
    (upload_font_variants variantsW "Med.woff2" 500 "normal").length =
      variantsW.length + 1 ∧
    (⟨"NewBold.woff2", 700, "normal"⟩ : FontVariantJson) ∈
      upload_font_variants variantsW "NewBold.woff2" 700 "normal" ∧
    List.Sorted variantLe
      (upload_font_variants variantsW "Med.woff2" 500 "normal") := by
  have h1 := upload_font_upsert_spec variantsW "NewBold.woff2" 700 "normal"
    (by decide)
  have h2 := upload_font_upsert_spec variantsW "Med.woff2" 500 "normal"
    (by decide)
  exact ⟨h1.1 (by rfl), h2.2.1 (by rfl), h1.2.2.1, h2.2.2.2.1⟩

end ThemeBackend
